import Mathlib

/-!
Verification development for the Uniswap v4 indexer's state-aggregation engine
(`src/handlers/swap-handler.ts` and the token-metadata resolver).

Monetary/ratio quantities (TypeScript `BigDecimal`, exact arbitrary-precision
decimal arithmetic) are modelled as `ℚ`; raw on-chain quantities (`bigint`) as
`ℤ`.  The persistence layer (`context.<Entity>.get` / `.set`, an upsert keyed by
the entity's `id`) is modelled as association lists from keys to entities.
Results of helper functions whose source files are not part of the repository
snapshot (`findNativePerToken`, `getNativePriceInUSD`,
`sqrtPriceX96ToTokenPrices`, `getTrackedAmountUSD`, `getAmount0`, `getAmount1`)
are supplied as oracle parameters of each event, so every theorem below holds
for all possible return values of those helpers.  The handlers are modelled in
their committing phase (`context.isPreload = false`); the preload pass issues
no writes by construction.
-/

namespace UniV4

/-- Modelled from the spec: `convertTokenToDecimal` (imported from `../utils`,
whose source is not in the snapshot) divides a raw signed integer token
quantity by `10 ^ decimals`. -/
def convertTokenToDecimal (tokenAmount : ℤ) (decimals : ℕ) : ℚ :=
  (tokenAmount : ℚ) / (10 : ℚ) ^ decimals

/-- Modelled from the spec: `safeDiv` (imported from `../utils/index`, whose
source is not in the snapshot) returns the zero value when the divisor is
exactly zero, and the exact quotient otherwise. -/
def safeDiv (amount0 amount1 : ℚ) : ℚ :=
  if amount1 = 0 then 0 else amount0 / amount1

/-- Lookup in the persistence layer: first entry with the given key. -/
def storeGet {α : Type} : List (String × α) → String → Option α
  | [], _ => none
  | (k', v) :: rest, k => if k' = k then some v else storeGet rest k

/-- Upsert in the persistence layer: replace the first entry with the given
key, or append a fresh entry. -/
def storeSet {α : Type} : List (String × α) → String → α → List (String × α)
  | [], k, v => [(k, v)]
  | (k', v') :: rest, k, v =>
    if k' = k then (k, v) :: rest else (k', v') :: storeSet rest k v

/-- `Bundle` entity: one per chain, carries the native-currency price in USD. -/
structure Bundle where
  id : String
  ethPriceUSD : ℚ
deriving DecidableEq

/-- `Token` entity (the fields the two handlers read or write). -/
structure Token where
  id : String
  decimals : ℕ
  derivedETH : ℚ
  totalValueLocked : ℚ
deriving DecidableEq

/-- `Pool` entity (the fields the two handlers read or write). -/
structure Pool where
  id : String
  token0 : String
  token1 : String
  hooks : String
  feeTier : ℤ
  sqrtPrice : Option ℤ
  tick : Option ℤ
  liquidity : ℤ
  token0Price : ℚ
  token1Price : ℚ
  txCount : ℤ
  volumeToken0 : ℚ
  volumeToken1 : ℚ
  volumeUSD : ℚ
  untrackedVolumeUSD : ℚ
  feesUSD : ℚ
  feesUSDUntracked : ℚ
  collectedFeesToken0 : ℚ
  collectedFeesToken1 : ℚ
  collectedFeesUSD : ℚ
  totalValueLockedToken0 : ℚ
  totalValueLockedToken1 : ℚ
  totalValueLockedETH : ℚ
  totalValueLockedUSD : ℚ
deriving DecidableEq

/-- `PoolManager` entity: per-chain global rollup. -/
structure PoolManager where
  id : String
  txCount : ℤ
  totalVolumeETH : ℚ
  totalVolumeUSD : ℚ
  untrackedVolumeUSD : ℚ
  totalFeesETH : ℚ
  totalFeesUSD : ℚ
  totalValueLockedETH : ℚ
  totalValueLockedUSD : ℚ
  numberOfSwaps : ℤ
  hookedSwaps : ℤ
deriving DecidableEq

/-- `HookStats` entity: per hook address per chain. -/
structure HookStats where
  id : String
  numberOfSwaps : ℤ
  totalVolumeUSD : ℚ
  untrackedVolumeUSD : ℚ
  totalFeesUSD : ℚ
  totalValueLockedUSD : ℚ
deriving DecidableEq

/-- `Tick` entity: per pool per initialized tick boundary. -/
structure Tick where
  id : String
  tickIdx : ℤ
  poolId : String
  chainId : ℕ
  liquidityGross : ℤ
  liquidityNet : ℤ
  createdAtTimestamp : ℤ
  createdAtBlockNumber : ℤ
deriving DecidableEq

/-- Immutable `Swap` event record. -/
structure SwapEntity where
  id : String
  chainId : ℕ
  transaction : String
  timestamp : ℤ
  pool : String
  token0_id : String
  token1_id : String
  sender : String
  origin : String
  amount0 : ℚ
  amount1 : ℚ
  amountUSD : ℚ
  sqrtPriceX96 : ℤ
  tick : ℤ
  logIndex : ℤ
deriving DecidableEq

/-- Immutable `ModifyLiquidity` event record. -/
structure ModifyLiquidityEntity where
  id : String
  chainId : ℕ
  transaction : String
  timestamp : ℤ
  pool_id : String
  token0_id : String
  token1_id : String
  sender : String
  origin : String
  amount : ℤ
  amount0 : ℚ
  amount1 : ℚ
  amountUSD : ℚ
  tickLower : ℤ
  tickUpper : ℤ
  logIndex : ℤ
deriving DecidableEq

/-- The persisted entity stores the two handlers read and write. -/
structure IndexerState where
  pools : List (String × Pool)
  tokens : List (String × Token)
  bundles : List (String × Bundle)
  managers : List (String × PoolManager)
  hookStatsStore : List (String × HookStats)
  ticks : List (String × Tick)
  swapStore : List (String × SwapEntity)
  modifyLiquidityStore : List (String × ModifyLiquidityEntity)
deriving DecidableEq

/-- Per-chain static configuration: the handlers only consult the exclusion
list (`poolsToSkip`); the remaining configuration values only feed the helper
functions whose results are supplied as oracle parameters. -/
structure ChainConfig where
  poolsToSkip : List String
deriving DecidableEq

/-- Event metadata common to both handlers. -/
structure EventMeta where
  chainId : ℕ
  srcAddress : String
  blockNumber : ℤ
  blockTimestamp : ℤ
  txHash : String
  txFrom : Option String
  logIndex : ℤ
deriving DecidableEq

/-- Parameters of a `PoolManager.Swap` event. -/
structure SwapEventParams where
  id : String
  sender : String
  amount0 : ℤ
  amount1 : ℤ
  sqrtPriceX96 : ℤ
  liquidity : ℤ
  tick : ℤ
deriving DecidableEq

/-- Parameters of a `PoolManager.ModifyLiquidity` event. -/
structure MLEventParams where
  id : String
  sender : String
  tickLower : ℤ
  tickUpper : ℤ
  liquidityDelta : ℤ
deriving DecidableEq

/-- Oracle values for the helper calls made by the swap handler:
`findNativePerToken` for each token, `getNativePriceInUSD`,
`sqrtPriceX96ToTokenPrices`, and `getTrackedAmountUSD`. -/
structure SwapEnv where
  derivedETH0 : ℚ
  derivedETH1 : ℚ
  ethPriceUSD : ℚ
  price0 : ℚ
  price1 : ℚ
  trackedAmountUSD : ℚ
deriving DecidableEq

/-- Oracle values for the helper calls made by the liquidity handler:
`getAmount0` and `getAmount1`. -/
structure MLEnv where
  amount0Raw : ℤ
  amount1Raw : ℤ
deriving DecidableEq

def ZERO_ADDRESS : String := "0x0000000000000000000000000000000000000000"

def managerKey (chainId : ℕ) (srcAddress : String) : String :=
  toString chainId ++ "_" ++ srcAddress

def poolKeyOf (chainId : ℕ) (poolId : String) : String :=
  toString chainId ++ "_" ++ poolId

def bundleKeyOf (chainId : ℕ) : String :=
  toString chainId

/-- Modelled from the spec: `createInitialTick` (from `../utils/tick`, whose
source is not in the snapshot) lazily creates a tick record with zero gross and
net liquidity, remembering the creating block and timestamp. -/
def createInitialTick (tickId : String) (tickIdx : ℤ) (poolId : String)
    (chainId : ℕ) (timestamp blockNumber : ℤ) : Tick :=
  { id := tickId
    tickIdx := tickIdx
    poolId := poolId
    chainId := chainId
    liquidityGross := 0
    liquidityNet := 0
    createdAtTimestamp := timestamp
    createdAtBlockNumber := blockNumber }

/-- The tick-ledger update of `updateTicks`: load (or lazily create) the lower
and upper boundary ticks, add the liquidity delta to both gross figures and to
the lower net figure, subtract it from the upper net figure, then save the
lower tick followed by the upper tick. -/
def updateTicks (poolId : String) (chainId : ℕ) (timestamp blockNumber : ℤ)
    (tickLower tickUpper liquidityDelta : ℤ)
    (ticks : List (String × Tick)) : List (String × Tick) :=
  let lowerTickId := poolId ++ "#" ++ toString tickLower
  let upperTickId := poolId ++ "#" ++ toString tickUpper
  let lowerTick0 := (storeGet ticks lowerTickId).getD
    (createInitialTick lowerTickId tickLower poolId chainId timestamp blockNumber)
  let upperTick0 := (storeGet ticks upperTickId).getD
    (createInitialTick upperTickId tickUpper poolId chainId timestamp blockNumber)
  let lowerTick := { lowerTick0 with
    liquidityGross := lowerTick0.liquidityGross + liquidityDelta
    liquidityNet := lowerTick0.liquidityNet + liquidityDelta }
  let upperTick := { upperTick0 with
    liquidityGross := upperTick0.liquidityGross + liquidityDelta
    liquidityNet := upperTick0.liquidityNet - liquidityDelta }
  storeSet (storeSet ticks lowerTick.id lowerTick) upperTick.id upperTick

/-- The state produced by the swap handler once all required entities have been
found and the pool is not excluded: the body of
`PoolManager.Swap.handlerWithLoader` after its early returns. -/
def swapResult (env : SwapEnv) (meta : EventMeta) (p : SwapEventParams)
    (st : IndexerState) (pool0 : Pool) (poolManager0 : PoolManager)
    (token0a token1a : Token) : IndexerState :=
  let poolKey := poolKeyOf meta.chainId p.id
  let isHookedPool : Bool := pool0.hooks != ZERO_ADDRESS
  let poolHookStats :=
    if isHookedPool then
      storeGet st.hookStatsStore (toString meta.chainId ++ "_" ++ pool0.hooks)
    else none
  let bundle0 := (storeGet st.bundles (bundleKeyOf meta.chainId)).getD
    { id := bundleKeyOf meta.chainId, ethPriceUSD := 0 }
  let token0 := { token0a with derivedETH := env.derivedETH0 }
  let token1 := { token1a with derivedETH := env.derivedETH1 }
  let ethPriceUSD := env.ethPriceUSD
  let amount0 := convertTokenToDecimal p.amount0 token0.decimals * (-1)
  let amount1 := convertTokenToDecimal p.amount1 token1.decimals * (-1)
  let amount0Abs := if amount0 < 0 then amount0 * (-1) else amount0
  let amount1Abs := if amount1 < 0 then amount1 * (-1) else amount1
  let amount0ETH := amount0Abs * token0.derivedETH
  let amount1ETH := amount1Abs * token1.derivedETH
  let amount0USD := amount0ETH * bundle0.ethPriceUSD
  let amount1USD := amount1ETH * bundle0.ethPriceUSD
  let amountTotalUSDTracked := env.trackedAmountUSD / 2
  let amountTotalETHTracked := safeDiv amountTotalUSDTracked bundle0.ethPriceUSD
  let amountTotalUSDUntracked := (amount0USD + amount1USD) / 2
  let feesETH := amountTotalETHTracked * (pool0.feeTier : ℚ) / 1000000
  let feesUSD := amountTotalUSDTracked * (pool0.feeTier : ℚ) / 1000000
  let feesUSDUntracked := amountTotalUSDUntracked * ((pool0.feeTier : ℚ) / 1000000)
  let feesToken0 := amount0Abs * (pool0.feeTier : ℚ) / 1000000
  let feesToken1 := amount1Abs * (pool0.feeTier : ℚ) / 1000000
  let currentPoolTvlETH := pool0.totalValueLockedETH
  let currentPoolTvlUSD := pool0.totalValueLockedUSD
  let pool1 := { pool0 with
    txCount := pool0.txCount + 1
    sqrtPrice := some p.sqrtPriceX96
    tick := some p.tick
    token0Price := env.price0
    token1Price := env.price1
    totalValueLockedToken0 := pool0.totalValueLockedToken0 + amount0
    totalValueLockedToken1 := pool0.totalValueLockedToken1 + amount1
    liquidity := p.liquidity
    volumeToken0 := pool0.volumeToken0 + amount0Abs
    volumeToken1 := pool0.volumeToken1 + amount1Abs
    volumeUSD := pool0.volumeUSD + amountTotalUSDTracked
    untrackedVolumeUSD := pool0.untrackedVolumeUSD + amountTotalUSDUntracked
    feesUSD := pool0.feesUSD + feesUSD
    feesUSDUntracked := pool0.feesUSDUntracked + feesUSDUntracked
    collectedFeesToken0 := pool0.collectedFeesToken0 + feesToken0
    collectedFeesToken1 := pool0.collectedFeesToken1 + feesToken1
    collectedFeesUSD := pool0.collectedFeesUSD + feesUSD }
  let pool2 := { pool1 with
    totalValueLockedETH := pool1.totalValueLockedToken0 * token0.derivedETH
      + pool1.totalValueLockedToken1 * token1.derivedETH }
  let pool3 := { pool2 with
    totalValueLockedUSD := pool2.totalValueLockedETH * bundle0.ethPriceUSD }
  let poolManager1 := { poolManager0 with
    txCount := poolManager0.txCount + 1
    totalVolumeETH := poolManager0.totalVolumeETH + amountTotalETHTracked
    totalVolumeUSD := poolManager0.totalVolumeUSD + amountTotalUSDTracked
    untrackedVolumeUSD := poolManager0.untrackedVolumeUSD + amountTotalUSDUntracked
    totalFeesETH := poolManager0.totalFeesETH + feesETH
    totalFeesUSD := poolManager0.totalFeesUSD + feesUSD
    totalValueLockedETH := poolManager0.totalValueLockedETH
      - currentPoolTvlETH + pool3.totalValueLockedETH }
  let poolManager2 := { poolManager1 with
    totalValueLockedUSD := poolManager1.totalValueLockedETH * bundle0.ethPriceUSD }
  let finalAmountUSD :=
    if amountTotalUSDTracked > 0 then amountTotalUSDTracked
    else amountTotalUSDUntracked
  let entity : SwapEntity :=
    { id := toString meta.chainId ++ "_" ++ toString meta.blockNumber
        ++ "_" ++ toString meta.logIndex
      chainId := meta.chainId
      transaction := meta.txHash
      timestamp := meta.blockTimestamp
      pool := poolKey
      token0_id := token0.id
      token1_id := token1.id
      sender := p.sender
      origin := meta.txFrom.getD "NONE"
      amount0 := amount0
      amount1 := amount1
      amountUSD := finalAmountUSD
      sqrtPriceX96 := p.sqrtPriceX96
      tick := p.tick
      logIndex := meta.logIndex }
  let poolManager3 := { poolManager2 with
    numberOfSwaps := poolManager2.numberOfSwaps + 1
    hookedSwaps :=
      if isHookedPool then poolManager2.hookedSwaps + 1
      else poolManager2.hookedSwaps }
  let hookStatsAfter :=
    match poolHookStats with
    | some hs =>
      let volumeToAdd :=
        if amountTotalUSDTracked > 0 then amountTotalUSDTracked
        else amountTotalUSDUntracked
      let feesToAdd :=
        if amountTotalUSDTracked > 0 then feesUSD
        else amountTotalUSDUntracked * ((pool3.feeTier : ℚ) / 1000000)
      let hs1 := { hs with
        numberOfSwaps := hs.numberOfSwaps + 1
        totalVolumeUSD := hs.totalVolumeUSD + volumeToAdd
        untrackedVolumeUSD := hs.untrackedVolumeUSD + amountTotalUSDUntracked
        totalFeesUSD := hs.totalFeesUSD + feesToAdd
        totalValueLockedUSD := hs.totalValueLockedUSD
          - currentPoolTvlUSD + pool3.totalValueLockedUSD }
      storeSet st.hookStatsStore hs1.id hs1
    | none => st.hookStatsStore
  { st with
    bundles := storeSet st.bundles bundle0.id { bundle0 with ethPriceUSD := ethPriceUSD }
    pools := storeSet st.pools pool3.id pool3
    managers := storeSet (storeSet st.managers poolManager2.id poolManager2)
      poolManager3.id poolManager3
    swapStore := storeSet st.swapStore entity.id entity
    tokens := storeSet (storeSet st.tokens token0.id token0) token1.id token1
    hookStatsStore := hookStatsAfter }

/-- The loader of `PoolManager.Swap.handlerWithLoader` (committing phase):
load pool, manager, bundle and tokens, skip silently when pool, manager or a
token is absent or the pool is on the exclusion list, otherwise produce the
updated state. -/
def swapStep (cfg : ChainConfig) (env : SwapEnv) (meta : EventMeta)
    (p : SwapEventParams) (st : IndexerState) : Option IndexerState :=
  match storeGet st.pools (poolKeyOf meta.chainId p.id),
        storeGet st.managers (managerKey meta.chainId meta.srcAddress) with
  | some pool0, some poolManager0 =>
    match storeGet st.tokens pool0.token0, storeGet st.tokens pool0.token1 with
    | some token0a, some token1a =>
      if p.id ∈ cfg.poolsToSkip then none
      else some (swapResult env meta p st pool0 poolManager0 token0a token1a)
    | _, _ => none
  | _, _ => none

/-- Outcome of the liquidity handler: silent skip, an exception raised by
`getOrThrow`, or a committed state. -/
inductive Outcome
  | skipped
  | raised
  | committed (st : IndexerState)
deriving DecidableEq

/-- The state produced by the liquidity handler once all required entities have
been found: the body of `PoolManager.ModifyLiquidity.handlerWithLoader` after
its early returns. -/
def mlResult (env : MLEnv) (meta : EventMeta) (p : MLEventParams)
    (st : IndexerState) (pool0 : Pool) (token0a token1a : Token)
    (bundle0 : Bundle) (poolManager0 : PoolManager) : IndexerState :=
  let ticksAfter := updateTicks pool0.id meta.chainId meta.blockTimestamp
    meta.blockNumber p.tickLower p.tickUpper p.liquidityDelta st.ticks
  let amount0 := convertTokenToDecimal env.amount0Raw token0a.decimals
  let amount1 := convertTokenToDecimal env.amount1Raw token1a.decimals
  let amountUSD := (amount0 * token0a.derivedETH + amount1 * token1a.derivedETH)
    * bundle0.ethPriceUSD
  let poolA := { pool0 with
    totalValueLockedToken0 := pool0.totalValueLockedToken0 + amount0
    totalValueLockedToken1 := pool0.totalValueLockedToken1 + amount1 }
  let poolB :=
    if p.tickLower ≤ poolA.tick.getD 0 ∧ p.tickUpper > poolA.tick.getD 0 then
      { poolA with liquidity := poolA.liquidity + p.liquidityDelta }
    else poolA
  let token0 := { token0a with
    totalValueLocked := token0a.totalValueLocked + amount0 }
  let token1 := { token1a with
    totalValueLocked := token1a.totalValueLocked + amount1 }
  let currentPoolTvlETH := poolB.totalValueLockedETH
  let currentPoolTvlUSD := poolB.totalValueLockedUSD
  let poolC := { poolB with
    totalValueLockedETH := poolB.totalValueLockedToken0 * token0.derivedETH
      + poolB.totalValueLockedToken1 * token1.derivedETH }
  let poolD := { poolC with
    totalValueLockedUSD := poolC.totalValueLockedETH * bundle0.ethPriceUSD }
  let poolManager1 := { poolManager0 with
    txCount := poolManager0.txCount + 1
    totalValueLockedETH := poolManager0.totalValueLockedETH
      - currentPoolTvlETH + poolD.totalValueLockedETH }
  let poolManager2 := { poolManager1 with
    totalValueLockedUSD := poolManager1.totalValueLockedETH * bundle0.ethPriceUSD }
  let mlEntity : ModifyLiquidityEntity :=
    { id := toString meta.chainId ++ "_" ++ meta.txHash
        ++ "_" ++ toString meta.logIndex
      chainId := meta.chainId
      transaction := meta.txHash
      timestamp := meta.blockTimestamp
      pool_id := poolD.id
      token0_id := token0.id
      token1_id := token1.id
      sender := p.sender
      origin := meta.txFrom.getD "NONE"
      amount := p.liquidityDelta
      amount0 := amount0
      amount1 := amount1
      amountUSD := amountUSD
      tickLower := p.tickLower
      tickUpper := p.tickUpper
      logIndex := meta.logIndex }
  let isHookedPool : Bool := poolD.hooks != ZERO_ADDRESS
  let hookStatsAfter :=
    if isHookedPool then
      match storeGet st.hookStatsStore (toString meta.chainId ++ "_" ++ poolD.hooks) with
      | some hs =>
        storeSet st.hookStatsStore hs.id { hs with
          totalValueLockedUSD := hs.totalValueLockedUSD
            - currentPoolTvlUSD + poolD.totalValueLockedETH * bundle0.ethPriceUSD }
      | none => st.hookStatsStore
    else st.hookStatsStore
  { st with
    ticks := ticksAfter
    modifyLiquidityStore := storeSet st.modifyLiquidityStore mlEntity.id mlEntity
    managers := storeSet st.managers poolManager2.id poolManager2
    pools := storeSet st.pools poolD.id poolD
    tokens := storeSet (storeSet st.tokens token0.id token0) token1.id token1
    hookStatsStore := hookStatsAfter }

/-- The loader of `PoolManager.ModifyLiquidity.handlerWithLoader` (committing
phase): skip excluded pools, skip silently when pool, a token or the bundle is
absent, raise (`getOrThrow`) when the manager is absent, otherwise produce the
updated state. -/
def mlStep (cfg : ChainConfig) (env : MLEnv) (meta : EventMeta)
    (p : MLEventParams) (st : IndexerState) : Outcome :=
  if p.id ∈ cfg.poolsToSkip then .skipped
  else
    match storeGet st.pools (poolKeyOf meta.chainId p.id) with
    | none => .skipped
    | some pool0 =>
      match storeGet st.tokens pool0.token0, storeGet st.tokens pool0.token1 with
      | some token0a, some token1a =>
        match storeGet st.bundles (bundleKeyOf meta.chainId) with
        | none => .skipped
        | some bundle0 =>
          match storeGet st.managers (managerKey meta.chainId meta.srcAddress) with
          | none => .raised
          | some poolManager0 =>
            .committed (mlResult env meta p st pool0 token0a token1a bundle0 poolManager0)
      | _, _ => .skipped

/-- One inbound event together with its helper-oracle values. -/
inductive Event
  | swap (env : SwapEnv) (meta : EventMeta) (p : SwapEventParams)
  | modifyLiquidity (env : MLEnv) (meta : EventMeta) (p : MLEventParams)
deriving DecidableEq

def Event.meta : Event → EventMeta
  | .swap _ m _ => m
  | .modifyLiquidity _ m _ => m

/-- The event is delivered on chain `c` by the manager contract `a`. -/
def EventOn (c : ℕ) (a : String) (e : Event) : Prop :=
  e.meta.chainId = c ∧ e.meta.srcAddress = a

/-- Process one event: skipped or raised events leave the state unchanged. -/
def runEvent (cfg : ChainConfig) (st : IndexerState) : Event → IndexerState
  | .swap env meta p => (swapStep cfg env meta p st).getD st
  | .modifyLiquidity env meta p =>
    match mlStep cfg env meta p st with
    | .committed st' => st'
    | _ => st

/-- Process a sequence of events in delivery order. -/
def runEvents (cfg : ChainConfig) : IndexerState → List Event → IndexerState
  | st, [] => st
  | st, e :: rest => runEvents cfg (runEvent cfg st e) rest

/-- Decimals resolution of `fetchTokenMetadataMulticall`: the on-chain read is
`none` on failure (the promise's catch substitutes the default 18), and any
queried value above 50 is clamped to 18. -/
def resolvedDecimals (queried : Option ℕ) : ℕ :=
  let decimalsResult := match queried with
    | some v => v
    | none => 18
  if decimalsResult ≤ 50 then decimalsResult else 18

/-- Gross liquidity recorded at a tick id, zero when the tick is absent. -/
def tickGrossAt (ticks : List (String × Tick)) (tickId : String) : ℤ :=
  ((storeGet ticks tickId).map Tick.liquidityGross).getD 0

/-- Net liquidity recorded at a tick id, zero when the tick is absent. -/
def tickNetAt (ticks : List (String × Tick)) (tickId : String) : ℤ :=
  ((storeGet ticks tickId).map Tick.liquidityNet).getD 0

/-- Sum of `totalValueLockedETH` over all pools in the store. -/
def sumPoolETH (s : List (String × Pool)) : ℚ :=
  (s.map fun kv => kv.2.totalValueLockedETH).sum

/-- Sum of `totalValueLockedUSD` over all pools in the store. -/
def sumPoolUSD (s : List (String × Pool)) : ℚ :=
  (s.map fun kv => kv.2.totalValueLockedUSD).sum

/-- Every entity in the store carries its own key as its id (true of all
states the indexer builds, since `set` keys rows by the entity's id). -/
def StoreWF {α : Type} (f : α → String) (s : List (String × α)) : Prop :=
  ∀ k x, storeGet s k = some x → f x = k

theorem storeGet_storeSet_self {α : Type} (s : List (String × α)) (k : String) (v : α) :
    storeGet (storeSet s k v) k = some v := by
  induction s with
  | nil => simp [storeSet, storeGet]
  | cons hd tl ih =>
    obtain ⟨k', v'⟩ := hd
    by_cases h : k' = k
    · subst h
      simp [storeSet, storeGet]
    · simp [storeSet, storeGet, h, ih]

theorem storeGet_storeSet_ne {α : Type} (s : List (String × α)) {k k' : String} (v : α)
    (h : k' ≠ k) : storeGet (storeSet s k v) k' = storeGet s k' := by
  induction s with
  | nil => simp [storeSet, storeGet, Ne.symm h]
  | cons hd tl ih =>
    obtain ⟨k'', v''⟩ := hd
    by_cases hk : k'' = k
    · subst hk
      simp [storeSet, storeGet, Ne.symm h, h]
    · simp [storeSet, storeGet, hk, ih]

theorem storeWF_storeSet {α : Type} (f : α → String) {s : List (String × α)}
    {k : String} {v : α} (h : StoreWF f s) (hv : f v = k) :
    StoreWF f (storeSet s k v) := by
  intro k' x hx
  by_cases hk : k' = k
  · subst hk
    rw [storeGet_storeSet_self] at hx
    cases hx
    exact hv
  · rw [storeGet_storeSet_ne _ _ hk] at hx
    exact h k' x hx

theorem sumPoolETH_cons (k : String) (p : Pool) (tl : List (String × Pool)) :
    sumPoolETH ((k, p) :: tl) = p.totalValueLockedETH + sumPoolETH tl := by
  simp [sumPoolETH]

theorem sumPoolUSD_cons (k : String) (p : Pool) (tl : List (String × Pool)) :
    sumPoolUSD ((k, p) :: tl) = p.totalValueLockedUSD + sumPoolUSD tl := by
  simp [sumPoolUSD]

theorem sumPoolETH_storeSet (s : List (String × Pool)) {k : String} {p : Pool}
    (v : Pool) (hget : storeGet s k = some p) :
    sumPoolETH (storeSet s k v)
      = sumPoolETH s - p.totalValueLockedETH + v.totalValueLockedETH := by
  induction s with
  | nil => simp [storeGet] at hget
  | cons hd tl ih =>
    obtain ⟨k', p'⟩ := hd
    by_cases h : k' = k
    · subst h
      simp only [storeGet, if_pos, Option.some.injEq] at hget
      subst hget
      simp only [storeSet, if_pos, sumPoolETH_cons]
      ring
    · simp only [storeGet, h, if_false] at hget
      simp only [storeSet, h, if_false, sumPoolETH_cons, ih hget]
      ring

theorem swapStep_eq (cfg : ChainConfig) (env : SwapEnv) (meta : EventMeta)
    (p : SwapEventParams) (st : IndexerState)
    {pool0 : Pool} {poolManager0 : PoolManager} {token0a token1a : Token}
    (hpool : storeGet st.pools (poolKeyOf meta.chainId p.id) = some pool0)
    (hmgr : storeGet st.managers (managerKey meta.chainId meta.srcAddress) = some poolManager0)
    (ht0 : storeGet st.tokens pool0.token0 = some token0a)
    (ht1 : storeGet st.tokens pool0.token1 = some token1a)
    (hskip : p.id ∉ cfg.poolsToSkip) :
    swapStep cfg env meta p st
      = some (swapResult env meta p st pool0 poolManager0 token0a token1a) := by
  unfold swapStep
  rw [hpool, hmgr]
  dsimp only
  rw [ht0, ht1]
  dsimp only
  rw [if_neg hskip]

theorem mlStep_eq (cfg : ChainConfig) (env : MLEnv) (meta : EventMeta)
    (p : MLEventParams) (st : IndexerState)
    {pool0 : Pool} {token0a token1a : Token} {bundle0 : Bundle}
    {poolManager0 : PoolManager}
    (hskip : p.id ∉ cfg.poolsToSkip)
    (hpool : storeGet st.pools (poolKeyOf meta.chainId p.id) = some pool0)
    (ht0 : storeGet st.tokens pool0.token0 = some token0a)
    (ht1 : storeGet st.tokens pool0.token1 = some token1a)
    (hb : storeGet st.bundles (bundleKeyOf meta.chainId) = some bundle0)
    (hmgr : storeGet st.managers (managerKey meta.chainId meta.srcAddress) = some poolManager0) :
    mlStep cfg env meta p st
      = .committed (mlResult env meta p st pool0 token0a token1a bundle0 poolManager0) := by
  unfold mlStep
  rw [if_neg hskip, hpool]
  dsimp only
  rw [ht0, ht1]
  dsimp only
  rw [hb]
  dsimp only
  rw [hmgr]

theorem updateTicks_fields (ticks : List (String × Tick)) (poolId : String)
    (chainId : ℕ) (ts bn lo hi d : ℤ)
    (hwf : StoreWF Tick.id ticks)
    (hne : poolId ++ "#" ++ toString lo ≠ poolId ++ "#" ++ toString hi) :
    tickGrossAt (updateTicks poolId chainId ts bn lo hi d ticks)
        (poolId ++ "#" ++ toString lo)
      = tickGrossAt ticks (poolId ++ "#" ++ toString lo) + d ∧
    tickNetAt (updateTicks poolId chainId ts bn lo hi d ticks)
        (poolId ++ "#" ++ toString lo)
      = tickNetAt ticks (poolId ++ "#" ++ toString lo) + d ∧
    tickGrossAt (updateTicks poolId chainId ts bn lo hi d ticks)
        (poolId ++ "#" ++ toString hi)
      = tickGrossAt ticks (poolId ++ "#" ++ toString hi) + d ∧
    tickNetAt (updateTicks poolId chainId ts bn lo hi d ticks)
        (poolId ++ "#" ++ toString hi)
      = tickNetAt ticks (poolId ++ "#" ++ toString hi) - d ∧
    StoreWF Tick.id (updateTicks poolId chainId ts bn lo hi d ticks) := by
  have hlid : ((storeGet ticks (poolId ++ "#" ++ toString lo)).getD
      (createInitialTick (poolId ++ "#" ++ toString lo) lo poolId chainId ts bn)).id
      = poolId ++ "#" ++ toString lo := by
    cases h : storeGet ticks (poolId ++ "#" ++ toString lo) with
    | none => simp [createInitialTick]
    | some tk => simpa using hwf _ tk h
  have huid : ((storeGet ticks (poolId ++ "#" ++ toString hi)).getD
      (createInitialTick (poolId ++ "#" ++ toString hi) hi poolId chainId ts bn)).id
      = poolId ++ "#" ++ toString hi := by
    cases h : storeGet ticks (poolId ++ "#" ++ toString hi) with
    | none => simp [createInitialTick]
    | some tk => simpa using hwf _ tk h
  have hlg : ((storeGet ticks (poolId ++ "#" ++ toString lo)).getD
      (createInitialTick (poolId ++ "#" ++ toString lo) lo poolId chainId ts bn)).liquidityGross
      = tickGrossAt ticks (poolId ++ "#" ++ toString lo) := by
    cases h : storeGet ticks (poolId ++ "#" ++ toString lo) <;>
      simp [tickGrossAt, h, createInitialTick]
  have hln : ((storeGet ticks (poolId ++ "#" ++ toString lo)).getD
      (createInitialTick (poolId ++ "#" ++ toString lo) lo poolId chainId ts bn)).liquidityNet
      = tickNetAt ticks (poolId ++ "#" ++ toString lo) := by
    cases h : storeGet ticks (poolId ++ "#" ++ toString lo) <;>
      simp [tickNetAt, h, createInitialTick]
  have hug : ((storeGet ticks (poolId ++ "#" ++ toString hi)).getD
      (createInitialTick (poolId ++ "#" ++ toString hi) hi poolId chainId ts bn)).liquidityGross
      = tickGrossAt ticks (poolId ++ "#" ++ toString hi) := by
    cases h : storeGet ticks (poolId ++ "#" ++ toString hi) <;>
      simp [tickGrossAt, h, createInitialTick]
  have hun : ((storeGet ticks (poolId ++ "#" ++ toString hi)).getD
      (createInitialTick (poolId ++ "#" ++ toString hi) hi poolId chainId ts bn)).liquidityNet
      = tickNetAt ticks (poolId ++ "#" ++ toString hi) := by
    cases h : storeGet ticks (poolId ++ "#" ++ toString hi) <;>
      simp [tickNetAt, h, createInitialTick]
  refine ⟨?_, ?_, ?_, ?_, ?_⟩
  · simp only [updateTicks, tickGrossAt]
    rw [hlid, huid, storeGet_storeSet_ne _ _ hne, storeGet_storeSet_self]
    simp [hlg, tickGrossAt]
  · simp only [updateTicks, tickNetAt]
    rw [hlid, huid, storeGet_storeSet_ne _ _ hne, storeGet_storeSet_self]
    simp [hln, tickNetAt]
  · simp only [updateTicks, tickGrossAt]
    rw [hlid, huid, storeGet_storeSet_self]
    simp [hug, tickGrossAt]
  · simp only [updateTicks, tickNetAt]
    rw [hlid, huid, storeGet_storeSet_self]
    simp [hun, tickNetAt]
  · simp only [updateTicks]
    rw [hlid, huid]
    exact storeWF_storeSet _ (storeWF_storeSet _ hwf rfl) rfl

/-- Claim C7: `safeDiv x 0` is zero for every `x` (it cannot raise, being a
total function), and for every nonzero divisor `b`, `safeDiv a b` is the exact
quotient `a / b`. -/
theorem safeDiv_zero_and_exact (x a b : ℚ) (hb : b ≠ 0) :
    safeDiv x 0 = 0 ∧ safeDiv a b = a / b := by
  constructor
  · simp [safeDiv]
  · simp [safeDiv, hb]

/-- Witness for `safeDiv_zero_and_exact` at a concrete input. -/
theorem safeDiv_zero_and_exact_witness :
    safeDiv 7 0 = 0 ∧ safeDiv 7 2 = 7 / 2 :=
  safeDiv_zero_and_exact 7 7 2 (by norm_num)

/-- Claim C8: the resolved token decimals are 18 when the on-chain read fails,
18 when the queried value exceeds 50, and the queried value otherwise. -/
theorem resolvedDecimals_clamp (v : ℕ) :
    resolvedDecimals none = 18
      ∧ resolvedDecimals (some v) = if v ≤ 50 then v else 18 := by
  constructor
  · rfl
  · simp [resolvedDecimals]

/-- Claim C4: applying the tick-ledger update for a liquidity delta `d` and
then for `-d` over the same tick range restores `liquidityGross` and
`liquidityNet` of both boundary ticks to their pre-add values; a single
application adds `d` to the lower tick's gross and net liquidity, and adds `d`
to the upper tick's gross liquidity while subtracting `d` from its net
liquidity. -/
theorem updateTicks_round_trip (ticks : List (String × Tick)) (poolId : String)
    (chainId : ℕ) (ts bn lo hi d : ℤ)
    (hwf : StoreWF Tick.id ticks)
    (hne : poolId ++ "#" ++ toString lo ≠ poolId ++ "#" ++ toString hi) :
    (tickGrossAt (updateTicks poolId chainId ts bn lo hi (-d)
          (updateTicks poolId chainId ts bn lo hi d ticks))
        (poolId ++ "#" ++ toString lo)
      = tickGrossAt ticks (poolId ++ "#" ++ toString lo) ∧
     tickNetAt (updateTicks poolId chainId ts bn lo hi (-d)
          (updateTicks poolId chainId ts bn lo hi d ticks))
        (poolId ++ "#" ++ toString lo)
      = tickNetAt ticks (poolId ++ "#" ++ toString lo) ∧
     tickGrossAt (updateTicks poolId chainId ts bn lo hi (-d)
          (updateTicks poolId chainId ts bn lo hi d ticks))
        (poolId ++ "#" ++ toString hi)
      = tickGrossAt ticks (poolId ++ "#" ++ toString hi) ∧
     tickNetAt (updateTicks poolId chainId ts bn lo hi (-d)
          (updateTicks poolId chainId ts bn lo hi d ticks))
        (poolId ++ "#" ++ toString hi)
      = tickNetAt ticks (poolId ++ "#" ++ toString hi)) ∧
    (tickGrossAt (updateTicks poolId chainId ts bn lo hi d ticks)
        (poolId ++ "#" ++ toString lo)
      = tickGrossAt ticks (poolId ++ "#" ++ toString lo) + d ∧
     tickNetAt (updateTicks poolId chainId ts bn lo hi d ticks)
        (poolId ++ "#" ++ toString lo)
      = tickNetAt ticks (poolId ++ "#" ++ toString lo) + d ∧
     tickGrossAt (updateTicks poolId chainId ts bn lo hi d ticks)
        (poolId ++ "#" ++ toString hi)
      = tickGrossAt ticks (poolId ++ "#" ++ toString hi) + d ∧
     tickNetAt (updateTicks poolId chainId ts bn lo hi d ticks)
        (poolId ++ "#" ++ toString hi)
      = tickNetAt ticks (poolId ++ "#" ++ toString hi) - d) := by
  obtain ⟨h1, h2, h3, h4, hwf1⟩ :=
    updateTicks_fields ticks poolId chainId ts bn lo hi d hwf hne
  obtain ⟨g1, g2, g3, g4, _⟩ :=
    updateTicks_fields _ poolId chainId ts bn lo hi (-d) hwf1 hne
  exact ⟨⟨by omega, by omega, by omega, by omega⟩, h1, h2, h3, h4⟩

/-- Witness for `updateTicks_round_trip` at a concrete input. -/
theorem updateTicks_round_trip_witness :
    tickGrossAt (updateTicks "p" 1 0 0 1 2 (-5) (updateTicks "p" 1 0 0 1 2 5 []))
        ("p" ++ "#" ++ toString (1 : ℤ))
      = tickGrossAt [] ("p" ++ "#" ++ toString (1 : ℤ)) ∧
    tickGrossAt (updateTicks "p" 1 0 0 1 2 5 []) ("p" ++ "#" ++ toString (1 : ℤ))
      = tickGrossAt [] ("p" ++ "#" ++ toString (1 : ℤ)) + 5 :=
  ⟨(updateTicks_round_trip [] "p" 1 0 0 1 2 5
      (by intro k x h; simp [storeGet] at h) (by decide)).1.1,
   (updateTicks_round_trip [] "p" 1 0 0 1 2 5
      (by intro k x h; simp [storeGet] at h) (by decide)).2.1⟩

/-- Claim C10: when `tickLower = tickUpper` both boundary updates target the
same tick record and the upper-tick write overwrites the lower-tick write, so
the tick's gross liquidity changes by `+d` (not `+2d`) and its net liquidity
by `-d` (not `0`). -/
theorem updateTicks_equal_bounds (ticks : List (String × Tick)) (poolId : String)
    (chainId : ℕ) (ts bn t d : ℤ) (hwf : StoreWF Tick.id ticks) :
    tickGrossAt (updateTicks poolId chainId ts bn t t d ticks)
        (poolId ++ "#" ++ toString t)
      = tickGrossAt ticks (poolId ++ "#" ++ toString t) + d ∧
    tickNetAt (updateTicks poolId chainId ts bn t t d ticks)
        (poolId ++ "#" ++ toString t)
      = tickNetAt ticks (poolId ++ "#" ++ toString t) - d := by
  have hid : ((storeGet ticks (poolId ++ "#" ++ toString t)).getD
      (createInitialTick (poolId ++ "#" ++ toString t) t poolId chainId ts bn)).id
      = poolId ++ "#" ++ toString t := by
    cases h : storeGet ticks (poolId ++ "#" ++ toString t) with
    | none => simp [createInitialTick]
    | some tk => simpa using hwf _ tk h
  have hg : ((storeGet ticks (poolId ++ "#" ++ toString t)).getD
      (createInitialTick (poolId ++ "#" ++ toString t) t poolId chainId ts bn)).liquidityGross
      = tickGrossAt ticks (poolId ++ "#" ++ toString t) := by
    cases h : storeGet ticks (poolId ++ "#" ++ toString t) <;>
      simp [tickGrossAt, h, createInitialTick]
  have hn : ((storeGet ticks (poolId ++ "#" ++ toString t)).getD
      (createInitialTick (poolId ++ "#" ++ toString t) t poolId chainId ts bn)).liquidityNet
      = tickNetAt ticks (poolId ++ "#" ++ toString t) := by
    cases h : storeGet ticks (poolId ++ "#" ++ toString t) <;>
      simp [tickNetAt, h, createInitialTick]
  constructor
  · simp only [updateTicks, tickGrossAt]
    rw [hid, storeGet_storeSet_self]
    simp [hg, tickGrossAt]
  · simp only [updateTicks, tickNetAt]
    rw [hid, storeGet_storeSet_self]
    simp [hn, tickNetAt]

/-- Witness for `updateTicks_equal_bounds` at a concrete input. -/
theorem updateTicks_equal_bounds_witness :
    tickGrossAt (updateTicks "p" 1 0 0 3 3 7 []) ("p" ++ "#" ++ toString (3 : ℤ))
      = tickGrossAt [] ("p" ++ "#" ++ toString (3 : ℤ)) + 7 ∧
    tickNetAt (updateTicks "p" 1 0 0 3 3 7 []) ("p" ++ "#" ++ toString (3 : ℤ))
      = tickNetAt [] ("p" ++ "#" ++ toString (3 : ℤ)) - 7 :=
  updateTicks_equal_bounds [] "p" 1 0 0 3 7 (by intro k x h; simp [storeGet] at h)

/-- Claim C5: for a processed liquidity event the pool's liquidity changes by
`liquidityDelta` exactly when the (zero-defaulted) current tick lies in the
half-open range `[tickLower, tickUpper)`, and is unchanged otherwise; the TVL
fields `totalValueLockedToken0/1`, `totalValueLockedETH` and
`totalValueLockedUSD` are updated in either case. -/
theorem ml_liquidity_in_range_only (cfg : ChainConfig) (env : MLEnv)
    (meta : EventMeta) (p : MLEventParams) (st : IndexerState)
    (st' : IndexerState) {pool0 : Pool} {token0a token1a : Token}
    {bundle0 : Bundle} {poolManager0 : PoolManager}
    (hc : mlStep cfg env meta p st = .committed st')
    (hskip : p.id ∉ cfg.poolsToSkip)
    (hpool : storeGet st.pools (poolKeyOf meta.chainId p.id) = some pool0)
    (ht0 : storeGet st.tokens pool0.token0 = some token0a)
    (ht1 : storeGet st.tokens pool0.token1 = some token1a)
    (hb : storeGet st.bundles (bundleKeyOf meta.chainId) = some bundle0)
    (hmgr : storeGet st.managers (managerKey meta.chainId meta.srcAddress) = some poolManager0) :
    (storeGet st'.pools pool0.id).map (fun q =>
        (q.liquidity, q.totalValueLockedToken0, q.totalValueLockedToken1,
         q.totalValueLockedETH, q.totalValueLockedUSD))
      = some
        (if p.tickLower ≤ pool0.tick.getD 0 ∧ p.tickUpper > pool0.tick.getD 0 then
           pool0.liquidity + p.liquidityDelta
         else pool0.liquidity,
         pool0.totalValueLockedToken0 + convertTokenToDecimal env.amount0Raw token0a.decimals,
         pool0.totalValueLockedToken1 + convertTokenToDecimal env.amount1Raw token1a.decimals,
         (pool0.totalValueLockedToken0 + convertTokenToDecimal env.amount0Raw token0a.decimals)
             * token0a.derivedETH
           + (pool0.totalValueLockedToken1 + convertTokenToDecimal env.amount1Raw token1a.decimals)
             * token1a.derivedETH,
         ((pool0.totalValueLockedToken0 + convertTokenToDecimal env.amount0Raw token0a.decimals)
             * token0a.derivedETH
           + (pool0.totalValueLockedToken1 + convertTokenToDecimal env.amount1Raw token1a.decimals)
             * token1a.derivedETH) * bundle0.ethPriceUSD) := by
  rw [mlStep_eq cfg env meta p st hskip hpool ht0 ht1 hb hmgr] at hc
  injection hc with hc
  subst hc
  by_cases hcond : p.tickLower ≤ pool0.tick.getD 0 ∧ p.tickUpper > pool0.tick.getD 0
  · simp only [mlResult, if_pos hcond, storeGet_storeSet_self, Option.map_some]
    simp [hcond]
  · simp only [mlResult, if_neg hcond, storeGet_storeSet_self, Option.map_some]
    simp [hcond]

/-- The handler's absolute value: `x < 0 ? x * -1 : x` is `|x|`. -/
theorem ite_neg_abs (y : ℚ) : (if y < 0 then y * (-1) else y) = |y| := by
  split
  · rename_i h
    rw [mul_neg_one, abs_of_neg h]
  · rename_i h
    rw [abs_of_nonneg (not_lt.1 h)]

/-- Concrete chain configuration with an empty exclusion list. -/
def cfgFix : ChainConfig := { poolsToSkip := [] }

/-- Concrete event metadata on chain 1, manager contract `m`. -/
def metaFix : EventMeta :=
  { chainId := 1, srcAddress := "m", blockNumber := 10, blockTimestamp := 1000,
    txHash := "h", txFrom := none, logIndex := 0 }

/-- Concrete token with 6 decimals, priced at 1 native unit. -/
def token0Fix : Token :=
  { id := "1_t0", decimals := 6, derivedETH := 1, totalValueLocked := 0 }

/-- Concrete unpriced token with 0 decimals. -/
def token1Fix : Token :=
  { id := "1_t1", decimals := 0, derivedETH := 0, totalValueLocked := 0 }

/-- Concrete hookless pool holding one unit of token0. -/
def poolFix : Pool :=
  { id := "1_p1", token0 := "1_t0", token1 := "1_t1", hooks := ZERO_ADDRESS,
    feeTier := 3000, sqrtPrice := some 0, tick := some 0, liquidity := 0,
    token0Price := 0, token1Price := 0, txCount := 0, volumeToken0 := 0,
    volumeToken1 := 0, volumeUSD := 0, untrackedVolumeUSD := 0, feesUSD := 0,
    feesUSDUntracked := 0, collectedFeesToken0 := 0, collectedFeesToken1 := 0,
    collectedFeesUSD := 0, totalValueLockedToken0 := 1, totalValueLockedToken1 := 0,
    totalValueLockedETH := 1, totalValueLockedUSD := 1 }

/-- Concrete manager whose TVL matches the one pool of `stFix`. -/
def managerFix : PoolManager :=
  { id := "1_m", txCount := 0, totalVolumeETH := 0, totalVolumeUSD := 0,
    untrackedVolumeUSD := 0, totalFeesETH := 0, totalFeesUSD := 0,
    totalValueLockedETH := 1, totalValueLockedUSD := 1, numberOfSwaps := 0,
    hookedSwaps := 0 }

/-- Concrete bundle with native price 1 USD. -/
def bundleFix : Bundle := { id := "1", ethPriceUSD := 1 }

/-- Concrete single-pool state. -/
def stFix : IndexerState :=
  { pools := [("1_p1", poolFix)],
    tokens := [("1_t0", token0Fix), ("1_t1", token1Fix)],
    bundles := [("1", bundleFix)],
    managers := [("1_m", managerFix)],
    hookStatsStore := [], ticks := [], swapStore := [], modifyLiquidityStore := [] }

/-- The state with no entities at all. -/
def emptyState : IndexerState := ⟨[], [], [], [], [], [], [], []⟩

/-- Concrete liquidity event whose range `[10, 20)` excludes the current tick 0. -/
def pMLFix : MLEventParams :=
  { id := "p1", sender := "s", tickLower := 10, tickUpper := 20, liquidityDelta := 42 }

/-- Concrete liquidity-math oracle returning zero token amounts. -/
def mlEnvFix : MLEnv := { amount0Raw := 0, amount1Raw := 0 }

/-- Witness for `ml_liquidity_in_range_only`: with current tick 0 outside
`[10, 20)` the liquidity stays 0 while the TVL fields are recomputed. -/
theorem ml_liquidity_in_range_only_witness :
    (storeGet (mlResult mlEnvFix metaFix pMLFix stFix poolFix token0Fix token1Fix
        bundleFix managerFix).pools "1_p1").map (fun q =>
        (q.liquidity, q.totalValueLockedToken0, q.totalValueLockedToken1,
         q.totalValueLockedETH, q.totalValueLockedUSD))
      = some (0, 1, 0, 1, 1) := by
  have h := ml_liquidity_in_range_only cfgFix mlEnvFix metaFix pMLFix stFix
    (mlResult mlEnvFix metaFix pMLFix stFix poolFix token0Fix token1Fix
      bundleFix managerFix)
    rfl (by decide) rfl rfl rfl rfl rfl
  simpa [poolFix, token0Fix, token1Fix, bundleFix, pMLFix, mlEnvFix,
    convertTokenToDecimal] using h

/-- Claim C6: the stored swap record's decimal amounts are the raw signed
amounts divided by `10 ^ decimals` with the sign inverted, and the pool's
token0 volume accumulates the absolute value `amount0Abs`. -/
theorem swap_amounts_sign_inverted (cfg : ChainConfig) (env : SwapEnv)
    (meta : EventMeta) (p : SwapEventParams) (st st' : IndexerState)
    {pool0 : Pool} {poolManager0 : PoolManager} {token0a token1a : Token}
    (hstep : swapStep cfg env meta p st = some st')
    (hpool : storeGet st.pools (poolKeyOf meta.chainId p.id) = some pool0)
    (hmgr : storeGet st.managers (managerKey meta.chainId meta.srcAddress) = some poolManager0)
    (ht0 : storeGet st.tokens pool0.token0 = some token0a)
    (ht1 : storeGet st.tokens pool0.token1 = some token1a)
    (hskip : p.id ∉ cfg.poolsToSkip) :
    (storeGet st'.swapStore (toString meta.chainId ++ "_"
        ++ toString meta.blockNumber ++ "_" ++ toString meta.logIndex)).map
      (fun e => (e.amount0, e.amount1))
      = some (-((p.amount0 : ℚ) / 10 ^ token0a.decimals),
              -((p.amount1 : ℚ) / 10 ^ token1a.decimals)) ∧
    (storeGet st'.pools pool0.id).map Pool.volumeToken0
      = some (pool0.volumeToken0 + |(p.amount0 : ℚ) / 10 ^ token0a.decimals|) := by
  rw [swapStep_eq cfg env meta p st hpool hmgr ht0 ht1 hskip] at hstep
  injection hstep with hstep
  subst hstep
  constructor
  · simp only [swapResult, storeGet_storeSet_self, Option.map_some]
    simp [convertTokenToDecimal, mul_neg_one]
  · simp only [swapResult, storeGet_storeSet_self, Option.map_some]
    simp only [ite_neg_abs, mul_neg_one, abs_neg]
    simp [convertTokenToDecimal]
    have hp : (0 : ℚ) < 10 ^ token0a.decimals := by positivity
    rcases lt_or_le 0 p.amount0 with h | h
    · have ha : (0 : ℚ) ≤ (p.amount0 : ℚ) / 10 ^ token0a.decimals :=
        div_nonneg (by exact_mod_cast h.le) hp.le
      rw [if_pos h, abs_of_nonneg ha]
    · have ha : ((p.amount0 : ℚ)) / 10 ^ token0a.decimals ≤ 0 :=
        div_nonpos_iff.mpr (Or.inr ⟨by exact_mod_cast h, hp.le⟩)
      rw [if_neg (not_lt.2 h), abs_of_nonpos ha]

/-- Concrete price/volume oracle values for a swap. -/
def swapEnvC6 : SwapEnv :=
  { derivedETH0 := 1, derivedETH1 := 0, ethPriceUSD := 1, price0 := 0,
    price1 := 0, trackedAmountUSD := 0 }

/-- Concrete swap whose raw `amount0` is -1,000,000 on the 6-decimal token. -/
def pSwapC6 : SwapEventParams :=
  { id := "p1", sender := "s", amount0 := -1000000, amount1 := 0,
    sqrtPriceX96 := 0, liquidity := 0, tick := 0 }

/-- Witness for `swap_amounts_sign_inverted`: raw amount0 = -1,000,000 on a
6-decimal token is stored as +1.0, and the accumulated `amount0Abs` is 1.0. -/
theorem swap_amounts_sign_inverted_witness :
    (storeGet (swapResult swapEnvC6 metaFix pSwapC6 stFix poolFix managerFix
        token0Fix token1Fix).swapStore (toString metaFix.chainId ++ "_"
        ++ toString metaFix.blockNumber ++ "_" ++ toString metaFix.logIndex)).map
      (fun e => (e.amount0, e.amount1))
      = some (1, 0) ∧
    (storeGet (swapResult swapEnvC6 metaFix pSwapC6 stFix poolFix managerFix
        token0Fix token1Fix).pools "1_p1").map Pool.volumeToken0
      = some 1 := by
  have h := swap_amounts_sign_inverted cfgFix swapEnvC6 metaFix pSwapC6 stFix
    (swapResult swapEnvC6 metaFix pSwapC6 stFix poolFix managerFix token0Fix token1Fix)
    rfl rfl rfl rfl rfl (by decide)
  have e1 : -(((pSwapC6.amount0 : ℤ) : ℚ) / 10 ^ token0Fix.decimals) = (1 : ℚ) := by
    norm_num [pSwapC6, token0Fix]
  have e2 : -(((pSwapC6.amount1 : ℤ) : ℚ) / 10 ^ token1Fix.decimals) = (0 : ℚ) := by
    norm_num [pSwapC6, token1Fix]
  have e3 : poolFix.volumeToken0 + |((pSwapC6.amount0 : ℤ) : ℚ) / 10 ^ token0Fix.decimals|
      = (1 : ℚ) := by
    norm_num [pSwapC6, token0Fix, poolFix]
  rw [e1, e2, e3] at h
  exact h

/-- Claim C9: a processed swap writes each token back with only `derivedETH`
changed (id, decimals and `totalValueLocked` unchanged), while the pool's
per-token balances move by the converted swap amounts. -/
theorem swap_token_frame (cfg : ChainConfig) (env : SwapEnv)
    (meta : EventMeta) (p : SwapEventParams) (st st' : IndexerState)
    {pool0 : Pool} {poolManager0 : PoolManager} {token0a token1a : Token}
    (hstep : swapStep cfg env meta p st = some st')
    (hpool : storeGet st.pools (poolKeyOf meta.chainId p.id) = some pool0)
    (hmgr : storeGet st.managers (managerKey meta.chainId meta.srcAddress) = some poolManager0)
    (ht0 : storeGet st.tokens pool0.token0 = some token0a)
    (ht1 : storeGet st.tokens pool0.token1 = some token1a)
    (hskip : p.id ∉ cfg.poolsToSkip)
    (hne : token0a.id ≠ token1a.id) :
    storeGet st'.tokens token0a.id = some { token0a with derivedETH := env.derivedETH0 } ∧
    storeGet st'.tokens token1a.id = some { token1a with derivedETH := env.derivedETH1 } ∧
    (storeGet st'.pools pool0.id).map
        (fun q => (q.totalValueLockedToken0, q.totalValueLockedToken1))
      = some (pool0.totalValueLockedToken0
                + convertTokenToDecimal p.amount0 token0a.decimals * (-1),
              pool0.totalValueLockedToken1
                + convertTokenToDecimal p.amount1 token1a.decimals * (-1)) := by
  rw [swapStep_eq cfg env meta p st hpool hmgr ht0 ht1 hskip] at hstep
  injection hstep with hstep
  subst hstep
  refine ⟨?_, ?_, ?_⟩
  · simp only [swapResult]
    rw [storeGet_storeSet_ne _ _ hne, storeGet_storeSet_self]
  · simp only [swapResult]
    rw [storeGet_storeSet_self]
  · simp only [swapResult, storeGet_storeSet_self]
    simp

/-- Claim C3 (amended): the swap handler returns without any write when the
pool, the manager or a token is absent or the pool is excluded; the liquidity
handler returns without any write when the pool is excluded or the pool, a
token or the bundle is absent, but raises (`getOrThrow`) when only the manager
is absent — still without any write, since the lookup precedes all writes. -/
theorem handlers_skip_on_missing_or_excluded :
    (∀ (cfg : ChainConfig) (env : SwapEnv) (meta : EventMeta) (p : SwapEventParams)
        (st : IndexerState),
      (storeGet st.pools (poolKeyOf meta.chainId p.id) = none ∨
       storeGet st.managers (managerKey meta.chainId meta.srcAddress) = none ∨
       (∃ pool0, storeGet st.pools (poolKeyOf meta.chainId p.id) = some pool0 ∧
         (storeGet st.tokens pool0.token0 = none ∨
          storeGet st.tokens pool0.token1 = none)) ∨
       p.id ∈ cfg.poolsToSkip) →
      swapStep cfg env meta p st = none) ∧
    (∀ (cfg : ChainConfig) (env : MLEnv) (meta : EventMeta) (p : MLEventParams)
        (st : IndexerState),
      (p.id ∈ cfg.poolsToSkip ∨
       storeGet st.pools (poolKeyOf meta.chainId p.id) = none ∨
       (∃ pool0, storeGet st.pools (poolKeyOf meta.chainId p.id) = some pool0 ∧
         (storeGet st.tokens pool0.token0 = none ∨
          storeGet st.tokens pool0.token1 = none)) ∨
       storeGet st.bundles (bundleKeyOf meta.chainId) = none) →
      mlStep cfg env meta p st = .skipped) ∧
    (∀ (cfg : ChainConfig) (env : MLEnv) (meta : EventMeta) (p : MLEventParams)
        (st : IndexerState) (pool0 : Pool) (token0a token1a : Token) (bundle0 : Bundle),
      p.id ∉ cfg.poolsToSkip →
      storeGet st.pools (poolKeyOf meta.chainId p.id) = some pool0 →
      storeGet st.tokens pool0.token0 = some token0a →
      storeGet st.tokens pool0.token1 = some token1a →
      storeGet st.bundles (bundleKeyOf meta.chainId) = some bundle0 →
      storeGet st.managers (managerKey meta.chainId meta.srcAddress) = none →
      mlStep cfg env meta p st = .raised) := by
  refine ⟨?_, ?_, ?_⟩
  · intro cfg env meta p st h
    cases hpv : storeGet st.pools (poolKeyOf meta.chainId p.id) with
    | none =>
      unfold swapStep
      rw [hpv]
    | some pool0 =>
      cases hmv : storeGet st.managers (managerKey meta.chainId meta.srcAddress) with
      | none =>
        unfold swapStep
        rw [hpv, hmv]
      | some poolManager0 =>
        cases ht0v : storeGet st.tokens pool0.token0 with
        | none =>
          unfold swapStep
          rw [hpv, hmv]
          dsimp only
          rw [ht0v]
        | some token0a =>
          cases ht1v : storeGet st.tokens pool0.token1 with
          | none =>
            unfold swapStep
            rw [hpv, hmv]
            dsimp only
            rw [ht0v, ht1v]
          | some token1a =>
            have hsk : p.id ∈ cfg.poolsToSkip := by
              rcases h with h | h | ⟨q, hq, h⟩ | h
              · rw [hpv] at h
                simp at h
              · rw [hmv] at h
                simp at h
              · rw [hpv] at hq
                injection hq with hq
                subst hq
                rcases h with h | h
                · rw [ht0v] at h
                  simp at h
                · rw [ht1v] at h
                  simp at h
              · exact h
            unfold swapStep
            rw [hpv, hmv]
            dsimp only
            rw [ht0v, ht1v]
            dsimp only
            rw [if_pos hsk]
  · intro cfg env meta p st h
    by_cases hskip : p.id ∈ cfg.poolsToSkip
    · unfold mlStep
      rw [if_pos hskip]
    · cases hpv : storeGet st.pools (poolKeyOf meta.chainId p.id) with
      | none =>
        unfold mlStep
        rw [if_neg hskip, hpv]
      | some pool0 =>
        cases ht0v : storeGet st.tokens pool0.token0 with
        | none =>
          unfold mlStep
          rw [if_neg hskip, hpv]
          dsimp only
          rw [ht0v]
        | some token0a =>
          cases ht1v : storeGet st.tokens pool0.token1 with
          | none =>
            unfold mlStep
            rw [if_neg hskip, hpv]
            dsimp only
            rw [ht0v, ht1v]
          | some token1a =>
            have hbn : storeGet st.bundles (bundleKeyOf meta.chainId) = none := by
              rcases h with h | h | ⟨q, hq, h⟩ | h
              · exact absurd h hskip
              · rw [hpv] at h
                simp at h
              · rw [hpv] at hq
                injection hq with hq
                subst hq
                rcases h with h | h
                · rw [ht0v] at h
                  simp at h
                · rw [ht1v] at h
                  simp at h
              · exact h
            unfold mlStep
            rw [if_neg hskip, hpv]
            dsimp only
            rw [ht0v, ht1v]
            dsimp only
            rw [hbn]
  · intro cfg env meta p st pool0 token0a token1a bundle0 hskip hpool ht0 ht1 hb hmgr
    unfold mlStep
    rw [if_neg hskip, hpool]
    dsimp only
    rw [ht0, ht1]
    dsimp only
    rw [hb]
    dsimp only
    rw [hmgr]

/-- Claim C1 (amended): after every processed swap and liquidity event the
stored pool satisfies `totalValueLockedETH = totalValueLockedToken0 *
token0.derivedETH + totalValueLockedToken1 * token1.derivedETH` exactly, with
respect to the token entities stored by the same event, and
`totalValueLockedUSD = totalValueLockedETH * price` where `price` is the
bundle price the handler loaded at the start of the event: for liquidity
events this is the stored bundle's price (unchanged by the event), but for
swaps it is the pre-event bundle price (zero-defaulted), while the freshly
computed `ethPriceUSD` is persisted to the bundle without being used for TVL
valuation. -/
theorem pool_tvl_recomputed_after_swap_and_liquidity :
    (∀ (cfg : ChainConfig) (env : SwapEnv) (meta : EventMeta) (p : SwapEventParams)
        (st st' : IndexerState) (pool0 : Pool) (poolManager0 : PoolManager)
        (token0a token1a : Token),
      swapStep cfg env meta p st = some st' →
      storeGet st.pools (poolKeyOf meta.chainId p.id) = some pool0 →
      storeGet st.managers (managerKey meta.chainId meta.srcAddress) = some poolManager0 →
      storeGet st.tokens pool0.token0 = some token0a →
      storeGet st.tokens pool0.token1 = some token1a →
      p.id ∉ cfg.poolsToSkip →
      token0a.id = pool0.token0 →
      token1a.id = pool0.token1 →
      pool0.token0 ≠ pool0.token1 →
      storeGet st'.tokens pool0.token0 = some { token0a with derivedETH := env.derivedETH0 } ∧
      storeGet st'.tokens pool0.token1 = some { token1a with derivedETH := env.derivedETH1 } ∧
      (storeGet st'.pools pool0.id).map (fun q =>
          (q.token0, q.token1, q.totalValueLockedToken0, q.totalValueLockedToken1,
           q.totalValueLockedETH, q.totalValueLockedUSD))
        = some (pool0.token0, pool0.token1,
            pool0.totalValueLockedToken0 + convertTokenToDecimal p.amount0 token0a.decimals * (-1),
            pool0.totalValueLockedToken1 + convertTokenToDecimal p.amount1 token1a.decimals * (-1),
            (pool0.totalValueLockedToken0 + convertTokenToDecimal p.amount0 token0a.decimals * (-1))
                * env.derivedETH0
              + (pool0.totalValueLockedToken1 + convertTokenToDecimal p.amount1 token1a.decimals * (-1))
                * env.derivedETH1,
            ((pool0.totalValueLockedToken0 + convertTokenToDecimal p.amount0 token0a.decimals * (-1))
                * env.derivedETH0
              + (pool0.totalValueLockedToken1 + convertTokenToDecimal p.amount1 token1a.decimals * (-1))
                * env.derivedETH1)
              * ((storeGet st.bundles (bundleKeyOf meta.chainId)).map Bundle.ethPriceUSD).getD 0)) ∧
    (∀ (cfg : ChainConfig) (env : MLEnv) (meta : EventMeta) (p : MLEventParams)
        (st st' : IndexerState) (pool0 : Pool) (token0a token1a : Token)
        (bundle0 : Bundle) (poolManager0 : PoolManager),
      mlStep cfg env meta p st = .committed st' →
      p.id ∉ cfg.poolsToSkip →
      storeGet st.pools (poolKeyOf meta.chainId p.id) = some pool0 →
      storeGet st.tokens pool0.token0 = some token0a →
      storeGet st.tokens pool0.token1 = some token1a →
      storeGet st.bundles (bundleKeyOf meta.chainId) = some bundle0 →
      storeGet st.managers (managerKey meta.chainId meta.srcAddress) = some poolManager0 →
      token0a.id = pool0.token0 →
      token1a.id = pool0.token1 →
      pool0.token0 ≠ pool0.token1 →
      storeGet st'.tokens pool0.token0
          = some { token0a with totalValueLocked :=
              token0a.totalValueLocked + convertTokenToDecimal env.amount0Raw token0a.decimals } ∧
      storeGet st'.tokens pool0.token1
          = some { token1a with totalValueLocked :=
              token1a.totalValueLocked + convertTokenToDecimal env.amount1Raw token1a.decimals } ∧
      storeGet st'.bundles (bundleKeyOf meta.chainId) = some bundle0 ∧
      (storeGet st'.pools pool0.id).map (fun q =>
          (q.token0, q.token1, q.totalValueLockedETH, q.totalValueLockedUSD))
        = some (pool0.token0, pool0.token1,
            (pool0.totalValueLockedToken0 + convertTokenToDecimal env.amount0Raw token0a.decimals)
                * token0a.derivedETH
              + (pool0.totalValueLockedToken1 + convertTokenToDecimal env.amount1Raw token1a.decimals)
                * token1a.derivedETH,
            ((pool0.totalValueLockedToken0 + convertTokenToDecimal env.amount0Raw token0a.decimals)
                * token0a.derivedETH
              + (pool0.totalValueLockedToken1 + convertTokenToDecimal env.amount1Raw token1a.decimals)
                * token1a.derivedETH) * bundle0.ethPriceUSD)) := by
  constructor
  · intro cfg env meta p st st' pool0 poolManager0 token0a token1a
      hstep hpool hmgr ht0 ht1 hskip hid0 hid1 hne
    rw [swapStep_eq cfg env meta p st hpool hmgr ht0 ht1 hskip] at hstep
    injection hstep with hstep
    subst hstep
    have hne' : token0a.id ≠ token1a.id := by
      rw [hid0, hid1]
      exact hne
    rw [← hid0, ← hid1]
    have hbp : ((storeGet st.bundles (bundleKeyOf meta.chainId)).getD
          { id := bundleKeyOf meta.chainId, ethPriceUSD := 0 }).ethPriceUSD
        = ((storeGet st.bundles (bundleKeyOf meta.chainId)).map Bundle.ethPriceUSD).getD 0 := by
      cases storeGet st.bundles (bundleKeyOf meta.chainId) <;> simp
    refine ⟨?_, ?_, ?_⟩
    · simp only [swapResult]
      rw [storeGet_storeSet_ne _ _ hne', storeGet_storeSet_self]
    · simp only [swapResult]
      rw [storeGet_storeSet_self]
    · simp only [swapResult, storeGet_storeSet_self]
      simp
      exact ⟨hid0.symm, hid1.symm, Or.inl hbp⟩
  · intro cfg env meta p st st' pool0 token0a token1a bundle0 poolManager0
      hstep hskip hpool ht0 ht1 hb hmgr hid0 hid1 hne
    rw [mlStep_eq cfg env meta p st hskip hpool ht0 ht1 hb hmgr] at hstep
    injection hstep with hstep
    subst hstep
    have hne' : token0a.id ≠ token1a.id := by
      rw [hid0, hid1]
      exact hne
    rw [← hid0, ← hid1]
    by_cases hcond : p.tickLower ≤ pool0.tick.getD 0 ∧ p.tickUpper > pool0.tick.getD 0
    · refine ⟨?_, ?_, ?_, ?_⟩
      · simp only [mlResult, if_pos hcond]
        rw [storeGet_storeSet_ne _ _ hne', storeGet_storeSet_self]
      · simp only [mlResult, if_pos hcond]
        rw [storeGet_storeSet_self]
      · simp only [mlResult]
        exact hb
      · simp only [mlResult, if_pos hcond, storeGet_storeSet_self]
        simp
        exact ⟨hid0.symm, hid1.symm⟩
    · refine ⟨?_, ?_, ?_, ?_⟩
      · simp only [mlResult, if_neg hcond]
        rw [storeGet_storeSet_ne _ _ hne', storeGet_storeSet_self]
      · simp only [mlResult, if_neg hcond]
        rw [storeGet_storeSet_self]
      · simp only [mlResult]
        exact hb
      · simp only [mlResult, if_neg hcond, storeGet_storeSet_self]
        simp
        exact ⟨hid0.symm, hid1.symm⟩

/-- Concrete swap oracle values whose refreshed native price (3) differs from
the stored bundle price (1). -/
def swapEnvC1 : SwapEnv :=
  { derivedETH0 := 1, derivedETH1 := 0, ethPriceUSD := 3, price0 := 0,
    price1 := 0, trackedAmountUSD := 0 }

/-- Concrete swap with zero raw amounts. -/
def pSwap0 : SwapEventParams :=
  { id := "p1", sender := "s", amount0 := 0, amount1 := 0,
    sqrtPriceX96 := 0, liquidity := 0, tick := 0 }

/-- Characterization of the manager entity written by a committed swap. -/
theorem swapResult_manager_tvl (env : SwapEnv) (meta : EventMeta)
    (p : SwapEventParams) (st : IndexerState) (pool0 : Pool)
    (poolManager0 : PoolManager) (token0a token1a : Token) :
    (storeGet (swapResult env meta p st pool0 poolManager0 token0a token1a).managers
        poolManager0.id).map (fun m => (m.totalValueLockedETH, m.totalValueLockedUSD))
      = some
        (poolManager0.totalValueLockedETH - pool0.totalValueLockedETH
           + ((pool0.totalValueLockedToken0
                 + convertTokenToDecimal p.amount0 token0a.decimals * (-1)) * env.derivedETH0
              + (pool0.totalValueLockedToken1
                 + convertTokenToDecimal p.amount1 token1a.decimals * (-1)) * env.derivedETH1),
         (poolManager0.totalValueLockedETH - pool0.totalValueLockedETH
           + ((pool0.totalValueLockedToken0
                 + convertTokenToDecimal p.amount0 token0a.decimals * (-1)) * env.derivedETH0
              + (pool0.totalValueLockedToken1
                 + convertTokenToDecimal p.amount1 token1a.decimals * (-1)) * env.derivedETH1))
           * ((storeGet st.bundles (bundleKeyOf meta.chainId)).map Bundle.ethPriceUSD).getD 0) := by
  have hbp : ((storeGet st.bundles (bundleKeyOf meta.chainId)).getD
        { id := bundleKeyOf meta.chainId, ethPriceUSD := 0 }).ethPriceUSD
      = ((storeGet st.bundles (bundleKeyOf meta.chainId)).map Bundle.ethPriceUSD).getD 0 := by
    cases storeGet st.bundles (bundleKeyOf meta.chainId) <;> simp
  simp only [swapResult, storeGet_storeSet_self, Option.map_some']
  simp [hbp]

/-- Characterization of the pool store written by a committed swap. -/
theorem swapResult_pools_charact (env : SwapEnv) (meta : EventMeta)
    (p : SwapEventParams) (st : IndexerState) (pool0 : Pool)
    (poolManager0 : PoolManager) (token0a token1a : Token) :
    ∃ q : Pool,
      (swapResult env meta p st pool0 poolManager0 token0a token1a).pools
        = storeSet st.pools pool0.id q ∧
      q.totalValueLockedETH
        = (pool0.totalValueLockedToken0
             + convertTokenToDecimal p.amount0 token0a.decimals * (-1)) * env.derivedETH0
          + (pool0.totalValueLockedToken1
             + convertTokenToDecimal p.amount1 token1a.decimals * (-1)) * env.derivedETH1 ∧
      q.totalValueLockedUSD
        = ((pool0.totalValueLockedToken0
             + convertTokenToDecimal p.amount0 token0a.decimals * (-1)) * env.derivedETH0
          + (pool0.totalValueLockedToken1
             + convertTokenToDecimal p.amount1 token1a.decimals * (-1)) * env.derivedETH1)
          * ((storeGet st.bundles (bundleKeyOf meta.chainId)).map Bundle.ethPriceUSD).getD 0 := by
  have hbp : ((storeGet st.bundles (bundleKeyOf meta.chainId)).getD
        { id := bundleKeyOf meta.chainId, ethPriceUSD := 0 }).ethPriceUSD
      = ((storeGet st.bundles (bundleKeyOf meta.chainId)).map Bundle.ethPriceUSD).getD 0 := by
    cases storeGet st.bundles (bundleKeyOf meta.chainId) <;> simp
  exact ⟨_, rfl, by simp, by simp [hbp]⟩

/-- Claim C1 counterexample: after this swap the stored pool has
`totalValueLockedUSD = 1` while `totalValueLockedETH * bundle.ethPriceUSD = 3`,
because the handler persists the freshly computed price 3 to the bundle while
valuing the pool TVL at the previously stored price 1. -/
theorem swap_tvlUSD_stale_bundle_cex :
    ((swapStep cfgFix swapEnvC1 metaFix pSwap0 stFix).bind fun s =>
      (storeGet s.pools "1_p1").bind fun q =>
        (storeGet s.bundles "1").map fun b =>
          (q.totalValueLockedUSD, q.totalValueLockedETH * b.ethPriceUSD))
      = some (1, 3) ∧ (1 : ℚ) ≠ 3 := by
  refine ⟨?_, by norm_num⟩
  have hs : swapStep cfgFix swapEnvC1 metaFix pSwap0 stFix
      = some (swapResult swapEnvC1 metaFix pSwap0 stFix poolFix managerFix token0Fix token1Fix) :=
    swapStep_eq _ _ _ _ _ rfl rfl rfl rfl (by decide)
  have hbundle : storeGet (swapResult swapEnvC1 metaFix pSwap0 stFix poolFix managerFix
      token0Fix token1Fix).bundles "1" = some { id := "1", ethPriceUSD := 3 } := rfl
  have hb1 : ((storeGet stFix.bundles (bundleKeyOf metaFix.chainId)).map
      Bundle.ethPriceUSD).getD 0 = (1 : ℚ) := rfl
  obtain ⟨q, hpools, hqE, hqU⟩ := swapResult_pools_charact swapEnvC1 metaFix pSwap0 stFix
    poolFix managerFix token0Fix token1Fix
  rw [hb1] at hqU
  have hq' : storeGet (swapResult swapEnvC1 metaFix pSwap0 stFix poolFix managerFix
      token0Fix token1Fix).pools "1_p1" = some q := by
    rw [hpools]
    exact storeGet_storeSet_self _ _ _
  rw [hs]
  simp only [Option.some_bind]
  rw [hq']
  simp only [Option.some_bind]
  rw [hbundle]
  simp only [Option.map_some']
  rw [hqU, hqE]
  norm_num [convertTokenToDecimal, poolFix, token0Fix, token1Fix, swapEnvC1, pSwap0]

/-- Witness for `pool_tvl_recomputed_after_swap_and_liquidity` at concrete
inputs: one swap and one liquidity event on the single-pool state. -/
theorem pool_tvl_recomputed_witness :
    (storeGet (swapResult swapEnvC1 metaFix pSwap0 stFix poolFix managerFix
        token0Fix token1Fix).pools poolFix.id).map (fun q =>
        (q.token0, q.token1, q.totalValueLockedToken0, q.totalValueLockedToken1,
         q.totalValueLockedETH, q.totalValueLockedUSD))
      = some (poolFix.token0, poolFix.token1,
          poolFix.totalValueLockedToken0 + convertTokenToDecimal pSwap0.amount0 token0Fix.decimals * (-1),
          poolFix.totalValueLockedToken1 + convertTokenToDecimal pSwap0.amount1 token1Fix.decimals * (-1),
          (poolFix.totalValueLockedToken0 + convertTokenToDecimal pSwap0.amount0 token0Fix.decimals * (-1))
              * swapEnvC1.derivedETH0
            + (poolFix.totalValueLockedToken1 + convertTokenToDecimal pSwap0.amount1 token1Fix.decimals * (-1))
              * swapEnvC1.derivedETH1,
          ((poolFix.totalValueLockedToken0 + convertTokenToDecimal pSwap0.amount0 token0Fix.decimals * (-1))
              * swapEnvC1.derivedETH0
            + (poolFix.totalValueLockedToken1 + convertTokenToDecimal pSwap0.amount1 token1Fix.decimals * (-1))
              * swapEnvC1.derivedETH1)
            * ((storeGet stFix.bundles (bundleKeyOf metaFix.chainId)).map Bundle.ethPriceUSD).getD 0) ∧
    (storeGet (mlResult mlEnvFix metaFix pMLFix stFix poolFix token0Fix token1Fix
        bundleFix managerFix).pools poolFix.id).map (fun q =>
        (q.token0, q.token1, q.totalValueLockedETH, q.totalValueLockedUSD))
      = some (poolFix.token0, poolFix.token1,
          (poolFix.totalValueLockedToken0 + convertTokenToDecimal mlEnvFix.amount0Raw token0Fix.decimals)
              * token0Fix.derivedETH
            + (poolFix.totalValueLockedToken1 + convertTokenToDecimal mlEnvFix.amount1Raw token1Fix.decimals)
              * token1Fix.derivedETH,
          ((poolFix.totalValueLockedToken0 + convertTokenToDecimal mlEnvFix.amount0Raw token0Fix.decimals)
              * token0Fix.derivedETH
            + (poolFix.totalValueLockedToken1 + convertTokenToDecimal mlEnvFix.amount1Raw token1Fix.decimals)
              * token1Fix.derivedETH) * bundleFix.ethPriceUSD) :=
  ⟨(pool_tvl_recomputed_after_swap_and_liquidity.1 cfgFix swapEnvC1 metaFix pSwap0 stFix
      (swapResult swapEnvC1 metaFix pSwap0 stFix poolFix managerFix token0Fix token1Fix)
      poolFix managerFix token0Fix token1Fix
      rfl rfl rfl rfl rfl (by decide) rfl rfl (by decide)).2.2,
   (pool_tvl_recomputed_after_swap_and_liquidity.2 cfgFix mlEnvFix metaFix pMLFix stFix
      (mlResult mlEnvFix metaFix pMLFix stFix poolFix token0Fix token1Fix bundleFix managerFix)
      poolFix token0Fix token1Fix bundleFix managerFix
      rfl (by decide) rfl rfl rfl rfl rfl rfl rfl (by decide)).2.2.2⟩

/-- The single-pool state with the manager entity removed. -/
def stNoMgr : IndexerState := { stFix with managers := [] }

/-- Claim C3 counterexample: a liquidity event whose pool, tokens and bundle
exist but whose manager is absent makes the handler raise (`getOrThrow`)
instead of returning silently. -/
theorem ml_missing_manager_raises_cex :
    mlStep cfgFix mlEnvFix metaFix pMLFix stNoMgr = .raised ∧
    Outcome.raised ≠ Outcome.skipped := by
  constructor
  · rfl
  · intro hcontra
    cases hcontra

/-- Witness for `handlers_skip_on_missing_or_excluded` at concrete inputs. -/
theorem handlers_skip_witness :
    swapStep cfgFix swapEnvC6 metaFix pSwapC6 emptyState = none ∧
    mlStep cfgFix mlEnvFix metaFix pMLFix emptyState = .skipped ∧
    mlStep cfgFix mlEnvFix metaFix pMLFix stNoMgr = .raised :=
  ⟨handlers_skip_on_missing_or_excluded.1 cfgFix swapEnvC6 metaFix pSwapC6 emptyState
      (Or.inl rfl),
   handlers_skip_on_missing_or_excluded.2.1 cfgFix mlEnvFix metaFix pMLFix emptyState
      (Or.inr (Or.inl rfl)),
   handlers_skip_on_missing_or_excluded.2.2 cfgFix mlEnvFix metaFix pMLFix stNoMgr
      poolFix token0Fix token1Fix bundleFix (by decide) rfl rfl rfl rfl rfl⟩

/-- Witness for `swap_token_frame` at a concrete input. -/
theorem swap_token_frame_witness :
    storeGet (swapResult swapEnvC6 metaFix pSwapC6 stFix poolFix managerFix
        token0Fix token1Fix).tokens token0Fix.id
      = some { token0Fix with derivedETH := swapEnvC6.derivedETH0 } ∧
    storeGet (swapResult swapEnvC6 metaFix pSwapC6 stFix poolFix managerFix
        token0Fix token1Fix).tokens token1Fix.id
      = some { token1Fix with derivedETH := swapEnvC6.derivedETH1 } ∧
    (storeGet (swapResult swapEnvC6 metaFix pSwapC6 stFix poolFix managerFix
        token0Fix token1Fix).pools poolFix.id).map
        (fun q => (q.totalValueLockedToken0, q.totalValueLockedToken1))
      = some (poolFix.totalValueLockedToken0
                + convertTokenToDecimal pSwapC6.amount0 token0Fix.decimals * (-1),
              poolFix.totalValueLockedToken1
                + convertTokenToDecimal pSwapC6.amount1 token1Fix.decimals * (-1)) :=
  swap_token_frame cfgFix swapEnvC6 metaFix pSwapC6 stFix
    (swapResult swapEnvC6 metaFix pSwapC6 stFix poolFix managerFix token0Fix token1Fix)
    rfl rfl rfl rfl rfl (by decide) (by decide)

theorem sumPoolUSD_storeSet (s : List (String × Pool)) {k : String} {p : Pool}
    (v : Pool) (hget : storeGet s k = some p) :
    sumPoolUSD (storeSet s k v)
      = sumPoolUSD s - p.totalValueLockedUSD + v.totalValueLockedUSD := by
  induction s with
  | nil => simp [storeGet] at hget
  | cons hd tl ih =>
    obtain ⟨k', p'⟩ := hd
    by_cases h : k' = k
    · subst h
      simp only [storeGet, if_pos, Option.some.injEq] at hget
      subst hget
      simp only [storeSet, if_pos, sumPoolUSD_cons]
      ring
    · simp only [storeGet, h, if_false] at hget
      simp only [storeSet, h, if_false, sumPoolUSD_cons, ih hget]
      ring

theorem storeWF_nil {α : Type} (f : α → String) : StoreWF f [] := by
  intro k x h
  simp [storeGet] at h

theorem storeWF_cons {α : Type} (f : α → String) {k : String} {v : α}
    {rest : List (String × α)} (hv : f v = k) (hrest : StoreWF f rest) :
    StoreWF f ((k, v) :: rest) := by
  intro k' x hx
  simp only [storeGet] at hx
  split at hx
  · rename_i hk
    cases hx
    exact hk ▸ hv
  · exact hrest _ _ hx

/-- The incremental-aggregate invariant: the manager's `totalValueLockedETH`
equals the sum of `totalValueLockedETH` over all pools in the store. -/
def managerTVLInv (st : IndexerState) (mk : String) : Prop :=
  ∀ m, storeGet st.managers mk = some m →
    m.totalValueLockedETH = sumPoolETH st.pools

theorem swap_preserves_manager_inv (cfg : ChainConfig) (env : SwapEnv)
    (meta : EventMeta) (p : SwapEventParams) (st st' : IndexerState)
    (h : swapStep cfg env meta p st = some st')
    (hPW : StoreWF Pool.id st.pools) (hMW : StoreWF PoolManager.id st.managers) :
    StoreWF Pool.id st'.pools ∧ StoreWF PoolManager.id st'.managers ∧
    (managerTVLInv st (managerKey meta.chainId meta.srcAddress) →
     managerTVLInv st' (managerKey meta.chainId meta.srcAddress)) := by
  cases hpv : storeGet st.pools (poolKeyOf meta.chainId p.id) with
  | none =>
    have hnone : swapStep cfg env meta p st = none := by
      unfold swapStep
      rw [hpv]
    rw [hnone] at h
    cases h
  | some pool0 =>
    cases hmv : storeGet st.managers (managerKey meta.chainId meta.srcAddress) with
    | none =>
      have hnone : swapStep cfg env meta p st = none := by
        unfold swapStep
        rw [hpv, hmv]
      rw [hnone] at h
      cases h
    | some poolManager0 =>
      cases ht0v : storeGet st.tokens pool0.token0 with
      | none =>
        have hnone : swapStep cfg env meta p st = none := by
          unfold swapStep
          rw [hpv, hmv]
          dsimp only
          rw [ht0v]
        rw [hnone] at h
        cases h
      | some token0a =>
        cases ht1v : storeGet st.tokens pool0.token1 with
        | none =>
          have hnone : swapStep cfg env meta p st = none := by
            unfold swapStep
            rw [hpv, hmv]
            dsimp only
            rw [ht0v, ht1v]
          rw [hnone] at h
          cases h
        | some token1a =>
          by_cases hskip : p.id ∈ cfg.poolsToSkip
          · have hnone : swapStep cfg env meta p st = none := by
              unfold swapStep
              rw [hpv, hmv]
              dsimp only
              rw [ht0v, ht1v]
              dsimp only
              rw [if_pos hskip]
            rw [hnone] at h
            cases h
          · rw [swapStep_eq cfg env meta p st hpv hmv ht0v ht1v hskip] at h
            injection h with h
            subst h
            refine ⟨?_, ?_, ?_⟩
            · simp only [swapResult]
              exact storeWF_storeSet _ hPW rfl
            · simp only [swapResult]
              exact storeWF_storeSet _ (storeWF_storeSet _ hMW rfl) rfl
            · intro hinv m hm
              have hmid : poolManager0.id = managerKey meta.chainId meta.srcAddress :=
                hMW _ _ hmv
              simp only [swapResult] at hm
              rw [hmid, storeGet_storeSet_self] at hm
              injection hm with hm
              subst hm
              have hpid : pool0.id = poolKeyOf meta.chainId p.id := hPW _ _ hpv
              have hget : storeGet st.pools pool0.id = some pool0 := by
                rw [hpid]
                exact hpv
              simp only [swapResult]
              rw [sumPoolETH_storeSet st.pools _ hget]
              have hS := hinv poolManager0 hmv
              dsimp only
              rw [hS]

theorem ml_preserves_manager_inv (cfg : ChainConfig) (env : MLEnv)
    (meta : EventMeta) (p : MLEventParams) (st st' : IndexerState)
    (h : mlStep cfg env meta p st = .committed st')
    (hPW : StoreWF Pool.id st.pools) (hMW : StoreWF PoolManager.id st.managers) :
    StoreWF Pool.id st'.pools ∧ StoreWF PoolManager.id st'.managers ∧
    (managerTVLInv st (managerKey meta.chainId meta.srcAddress) →
     managerTVLInv st' (managerKey meta.chainId meta.srcAddress)) := by
  by_cases hskip : p.id ∈ cfg.poolsToSkip
  · have hval : mlStep cfg env meta p st = .skipped := by
      unfold mlStep
      rw [if_pos hskip]
    rw [hval] at h
    cases h
  · cases hpv : storeGet st.pools (poolKeyOf meta.chainId p.id) with
    | none =>
      have hval : mlStep cfg env meta p st = .skipped := by
        unfold mlStep
        rw [if_neg hskip, hpv]
      rw [hval] at h
      cases h
    | some pool0 =>
      cases ht0v : storeGet st.tokens pool0.token0 with
      | none =>
        have hval : mlStep cfg env meta p st = .skipped := by
          unfold mlStep
          rw [if_neg hskip, hpv]
          dsimp only
          rw [ht0v]
        rw [hval] at h
        cases h
      | some token0a =>
        cases ht1v : storeGet st.tokens pool0.token1 with
        | none =>
          have hval : mlStep cfg env meta p st = .skipped := by
            unfold mlStep
            rw [if_neg hskip, hpv]
            dsimp only
            rw [ht0v, ht1v]
          rw [hval] at h
          cases h
        | some token1a =>
          cases hbv : storeGet st.bundles (bundleKeyOf meta.chainId) with
          | none =>
            have hval : mlStep cfg env meta p st = .skipped := by
              unfold mlStep
              rw [if_neg hskip, hpv]
              dsimp only
              rw [ht0v, ht1v]
              dsimp only
              rw [hbv]
            rw [hval] at h
            cases h
          | some bundle0 =>
            cases hmv : storeGet st.managers (managerKey meta.chainId meta.srcAddress) with
            | none =>
              have hval : mlStep cfg env meta p st = .raised := by
                unfold mlStep
                rw [if_neg hskip, hpv]
                dsimp only
                rw [ht0v, ht1v]
                dsimp only
                rw [hbv]
                dsimp only
                rw [hmv]
              rw [hval] at h
              cases h
            | some poolManager0 =>
              rw [mlStep_eq cfg env meta p st hskip hpv ht0v ht1v hbv hmv] at h
              injection h with h
              subst h
              by_cases hcond : p.tickLower ≤ pool0.tick.getD 0 ∧ p.tickUpper > pool0.tick.getD 0
              · refine ⟨?_, ?_, ?_⟩
                · simp only [mlResult, if_pos hcond]
                  exact storeWF_storeSet _ hPW rfl
                · simp only [mlResult, if_pos hcond]
                  exact storeWF_storeSet _ hMW rfl
                · intro hinv m hm
                  have hmid : poolManager0.id = managerKey meta.chainId meta.srcAddress :=
                    hMW _ _ hmv
                  simp only [mlResult, if_pos hcond] at hm
                  rw [hmid, storeGet_storeSet_self] at hm
                  injection hm with hm
                  subst hm
                  have hpid : pool0.id = poolKeyOf meta.chainId p.id := hPW _ _ hpv
                  have hget : storeGet st.pools pool0.id = some pool0 := by
                    rw [hpid]
                    exact hpv
                  simp only [mlResult, if_pos hcond]
                  rw [sumPoolETH_storeSet st.pools _ hget]
                  have hS := hinv poolManager0 hmv
                  dsimp only
                  rw [hS]
              · refine ⟨?_, ?_, ?_⟩
                · simp only [mlResult, if_neg hcond]
                  exact storeWF_storeSet _ hPW rfl
                · simp only [mlResult, if_neg hcond]
                  exact storeWF_storeSet _ hMW rfl
                · intro hinv m hm
                  have hmid : poolManager0.id = managerKey meta.chainId meta.srcAddress :=
                    hMW _ _ hmv
                  simp only [mlResult, if_neg hcond] at hm
                  rw [hmid, storeGet_storeSet_self] at hm
                  injection hm with hm
                  subst hm
                  have hpid : pool0.id = poolKeyOf meta.chainId p.id := hPW _ _ hpv
                  have hget : storeGet st.pools pool0.id = some pool0 := by
                    rw [hpid]
                    exact hpv
                  simp only [mlResult, if_neg hcond]
                  rw [sumPoolETH_storeSet st.pools _ hget]
                  have hS := hinv poolManager0 hmv
                  dsimp only
                  rw [hS]

theorem runEvent_preserves_manager_inv (cfg : ChainConfig) (c : ℕ) (a : String)
    (e : Event) (st : IndexerState) (he : EventOn c a e)
    (hPW : StoreWF Pool.id st.pools) (hMW : StoreWF PoolManager.id st.managers) :
    StoreWF Pool.id (runEvent cfg st e).pools ∧
    StoreWF PoolManager.id (runEvent cfg st e).managers ∧
    (managerTVLInv st (managerKey c a) →
     managerTVLInv (runEvent cfg st e) (managerKey c a)) := by
  cases e with
  | swap env meta p =>
    obtain ⟨hc, ha⟩ := he
    subst hc
    subst ha
    cases hs : swapStep cfg env meta p st with
    | none =>
      simp only [runEvent, hs, Option.getD_none]
      exact ⟨hPW, hMW, fun hi => hi⟩
    | some st' =>
      simp only [runEvent, hs, Option.getD_some]
      exact swap_preserves_manager_inv cfg env meta p st st' hs hPW hMW
  | modifyLiquidity env meta p =>
    obtain ⟨hc, ha⟩ := he
    subst hc
    subst ha
    cases hs : mlStep cfg env meta p st with
    | skipped =>
      simp only [runEvent, hs]
      exact ⟨hPW, hMW, fun hi => hi⟩
    | raised =>
      simp only [runEvent, hs]
      exact ⟨hPW, hMW, fun hi => hi⟩
    | committed st' =>
      simp only [runEvent, hs]
      exact ml_preserves_manager_inv cfg env meta p st st' hs hPW hMW

theorem runEvents_preserves_manager_inv (cfg : ChainConfig) (c : ℕ) (a : String) :
    ∀ (evs : List Event) (st : IndexerState),
      (∀ e ∈ evs, EventOn c a e) →
      StoreWF Pool.id st.pools →
      StoreWF PoolManager.id st.managers →
      managerTVLInv st (managerKey c a) →
      managerTVLInv (runEvents cfg st evs) (managerKey c a) := by
  intro evs
  induction evs with
  | nil =>
    intro st _ _ _ hinv
    exact hinv
  | cons e rest ih =>
    intro st hev hPW hMW hinv
    obtain ⟨hPW', hMW', hstep⟩ :=
      runEvent_preserves_manager_inv cfg c a e st (hev e (by simp)) hPW hMW
    exact ih (runEvent cfg st e) (fun e' he' => hev e' (by simp [he'])) hPW' hMW'
      (hstep hinv)

/-- Claim C2 (amended): at every point of any event sequence delivered for one
chain and manager contract, the manager's `totalValueLockedETH` equals the sum
of `totalValueLockedETH` over all pools in the store, maintained incrementally
by subtracting the touched pool's old contribution and adding its new one.
(The corresponding summation property for `totalValueLockedUSD` does not hold,
see the counterexample.) -/
theorem manager_tvlETH_equals_sum_of_pools (cfg : ChainConfig) (c : ℕ) (a : String)
    (evs : List Event) (st : IndexerState)
    (hev : ∀ e ∈ evs, EventOn c a e)
    (hPW : StoreWF Pool.id st.pools)
    (hMW : StoreWF PoolManager.id st.managers)
    (hinv : managerTVLInv st (managerKey c a)) :
    managerTVLInv (runEvents cfg st evs) (managerKey c a) :=
  runEvents_preserves_manager_inv cfg c a evs st hev hPW hMW hinv

/-- Witness for `manager_tvlETH_equals_sum_of_pools`: one concrete swap on the
single-pool state keeps the manager's ETH TVL equal to the pool sum. -/
theorem manager_tvlETH_sum_witness :
    managerTVLInv (runEvents cfgFix stFix [Event.swap swapEnvC6 metaFix pSwapC6])
      (managerKey 1 "m") := by
  apply manager_tvlETH_equals_sum_of_pools cfgFix 1 "m" _ stFix
  · intro e he
    simp only [List.mem_singleton] at he
    subst he
    exact ⟨rfl, rfl⟩
  · exact storeWF_cons _ rfl (storeWF_nil _)
  · exact storeWF_cons _ rfl (storeWF_nil _)
  · intro m hm
    have h1 : storeGet stFix.managers (managerKey 1 "m") = some managerFix := rfl
    rw [h1] at hm
    injection hm with hm
    subst hm
    show managerFix.totalValueLockedETH = sumPoolETH stFix.pools
    norm_num [managerFix, sumPoolETH, stFix, poolFix]

/-- Second concrete pool, identical figures to `poolFix`. -/
def pool2Fix : Pool := { poolFix with id := "1_p2" }

/-- Concrete manager matching the two pools of `st2Fix` (ETH 2, USD 2). -/
def manager2Fix : PoolManager :=
  { managerFix with totalValueLockedETH := 2, totalValueLockedUSD := 2 }

/-- Concrete bundle whose price has moved to 2 since the pools were valued. -/
def bundle2Fix : Bundle := { id := "1", ethPriceUSD := 2 }

/-- Concrete two-pool state whose bundle price moved after pool 2 was valued. -/
def st2Fix : IndexerState :=
  { pools := [("1_p1", poolFix), ("1_p2", pool2Fix)],
    tokens := [("1_t0", token0Fix), ("1_t1", token1Fix)],
    bundles := [("1", bundle2Fix)],
    managers := [("1_m", manager2Fix)],
    hookStatsStore := [], ticks := [], swapStore := [], modifyLiquidityStore := [] }

/-- Claim C2 counterexample: after this swap the manager records
`totalValueLockedUSD = 4` while the pools' USD TVL sums to 3, because the
manager's USD figure is manager-ETH times the current price while the
untouched pool keeps a USD figure valued at the older price. -/
theorem manager_tvlUSD_not_sum_cex :
    ((swapStep cfgFix swapEnvC1 metaFix pSwap0 st2Fix).bind fun s =>
      (storeGet s.managers "1_m").map fun m =>
        (m.totalValueLockedUSD, sumPoolUSD s.pools))
      = some (4, 3) ∧ (4 : ℚ) ≠ 3 := by
  refine ⟨?_, by norm_num⟩
  have hs : swapStep cfgFix swapEnvC1 metaFix pSwap0 st2Fix
      = some (swapResult swapEnvC1 metaFix pSwap0 st2Fix poolFix manager2Fix
          token0Fix token1Fix) :=
    swapStep_eq _ _ _ _ _ rfl rfl rfl rfl (by decide)
  have hb2 : ((storeGet st2Fix.bundles (bundleKeyOf metaFix.chainId)).map
      Bundle.ethPriceUSD).getD 0 = (2 : ℚ) := rfl
  have hM := swapResult_manager_tvl swapEnvC1 metaFix pSwap0 st2Fix poolFix
    manager2Fix token0Fix token1Fix
  obtain ⟨m, hm, hfm⟩ := Option.map_eq_some'.mp hM
  simp only [Prod.mk.injEq] at hfm
  obtain ⟨-, hmU⟩ := hfm
  rw [hb2] at hmU
  have hm' : storeGet (swapResult swapEnvC1 metaFix pSwap0 st2Fix poolFix manager2Fix
      token0Fix token1Fix).managers "1_m" = some m := hm
  obtain ⟨q, hpools, -, hqU⟩ := swapResult_pools_charact swapEnvC1 metaFix pSwap0 st2Fix
    poolFix manager2Fix token0Fix token1Fix
  rw [hb2] at hqU
  have hget : storeGet st2Fix.pools poolFix.id = some poolFix := rfl
  rw [hs]
  simp only [Option.some_bind]
  rw [hm']
  simp only [Option.map_some']
  rw [hpools, sumPoolUSD_storeSet st2Fix.pools _ hget, hqU, hmU]
  norm_num [sumPoolUSD, st2Fix, poolFix, pool2Fix, manager2Fix, managerFix,
    token0Fix, token1Fix, swapEnvC1, pSwap0, convertTokenToDecimal]

end UniV4
